import Mathlib

/-!
Verification of the etee-Python-API core against its specification.

The definitions below are a shallow embedding of the repository's source:
  * `EteeSpec.decodeWidget` / `EteeSpec.raw2data` embed
    `SerialReader.raw2data` (src/etee/tangio_for_etee/driver_base.py,
    lines 255-290), including the per-field range checks, the little-endian
    multi-byte combination, the bit-addressed paths, and the Python
    behaviour of the `event` local variable (left unbound or carrying the
    previous widget's value when a widget declares neither key).
  * `EteeSpec.sendCommandLoop` embeds the response-reading loop of
    `SerialReader.send_command` (lines 168-228), reading one CRLF line per
    iteration from a queue of pending serial lines.
  * `EteeSpec.tg0SendCommand` embeds the control flow of
    `TG0Driver.send_command` (lines 576-597) with its try/except/finally
    handling of the sleep flag.
  * `EteeSpec.Quat`, `EteeSpec.toEuler` and the `EteeSpec.Ahrs` definitions
    embed src/etee/quaternion.py and src/etee/ahrs.py over the real
    numbers; a division of a zero vector by its zero norm (a NaN in the
    Python/numpy code) is modelled by the `Option` result of the update
    functions being `none`.
-/

namespace EteeSpec

/-! ## Widget schema and decoder (SerialReader.raw2data) -/

/-- A `"byte"` or `"bit"` entry of a widget specification: in the YAML
configuration it is either a single integer offset or a list of offsets. -/
inductive KeySpec where
  | idx (n : Nat)
  | idxList (l : List Nat)
  deriving DecidableEq, Repr

/-- One widget specification: the optional `"byte"` and `"bit"` keys and the
presence flags `"signed"` and `"single_value"`. -/
structure WidgetProps where
  byte : Option KeySpec
  bit : Option KeySpec
  signed : Bool
  single_value : Bool
  deriving DecidableEq, Repr

/-- A decoded widget value: a single integer or (for a byte-offset list
without `"single_value"`) a list of per-byte integers. -/
inductive DVal where
  | int (z : Int)
  | list (l : List Int)
  deriving DecidableEq, Repr

/-- The runtime errors `raw2data` can raise: the `"Widget index our of
range"` exception, a Python `IndexError` (string index out of bounds), a
`TypeError` (iterating or indexing with the wrong shape), a `ValueError`
(`int("", 2)`), and the `NameError`/`UnboundLocalError` for a widget that
sets no `event`. -/
inductive DErr where
  | rangeError
  | indexError
  | typeError
  | valueError
  | unboundLocal
  deriving DecidableEq, Repr

/-- Outcome of processing one widget: a value assigned to `event`, an
exception, or no assignment at all (neither a `"byte"` nor a `"bit"` key). -/
inductive WStep where
  | val (v : DVal)
  | err (e : DErr)
  | skip
  deriving DecidableEq, Repr

/-- Result of `raw2data`: the ordered list of decoded fields or the first
exception raised. -/
inductive DResult where
  | ok (evs : List (Nat × DVal))
  | err (e : DErr)
  deriving DecidableEq, Repr

/-- Python `raw[x:x+1]`: a one-byte slice, empty when `x ≥ len(raw)`. -/
def slice1 (raw : List Nat) (x : Nat) : List Nat :=
  if x < raw.length then [raw.getD x 0] else []

/-- The unsigned little-endian value of a byte string. -/
def leNat : List Nat → Nat
  | [] => 0
  | b :: t => b + 256 * leNat t

/-- Python `int.from_bytes(bs, byteorder, signed)`: little- or big-endian
accumulation with an optional two's-complement reinterpretation. -/
def intFromBytes (bs : List Nat) (little : Bool) (signed : Bool) : Int :=
  let u : Nat := if little then leNat bs else leNat bs.reverse
  if signed ∧ 2 ^ (8 * bs.length - 1) ≤ u then
    (u : Int) - 2 ^ (8 * bs.length)
  else (u : Int)

/-- The bit of the frame selected by a global bit offset `i`: the frame's
bytes are reversed, hex-encoded, bit-reversed, so position `i` is bit
`i % 8` (least significant first) of byte `i / 8`. -/
def bitAt (raw : List Nat) (i : Nat) : Nat :=
  (raw.getD (i / 8) 0) >>> (i % 8) % 2

/-- Processing of a single widget by `raw2data` (driver_base.py 262-287):
branch on the `"byte"`/`"bit"` keys exactly as the source does, with the
source's strict `>` range checks. -/
def decodeWidget (p : WidgetProps) (raw : List Nat) : WStep :=
  match p.byte with
  | some (.idxList l) =>
      if l.any (fun x => decide (raw.length < x)) then .err .rangeError
      else if p.single_value then
        .val (.int (intFromBytes (l.flatMap (slice1 raw)) true p.signed))
      else
        .val (.list (l.map (fun x => intFromBytes (slice1 raw x) false p.signed)))
  | some (.idx i) =>
      if raw.length < i then .err .rangeError
      else
        match p.bit with
        | none => .val (.int (intFromBytes (slice1 raw i) false p.signed))
        | some (.idx b) =>
            if b < 8 * (slice1 raw i).length then
              .val (.int (((raw.getD i 0) >>> b) % 2))
            else .err .indexError
        | some (.idxList _) => .err .typeError
  | none =>
      match p.bit with
      | some (.idxList l) =>
          if l.any (fun x => decide (8 * raw.length < x)) then .err .rangeError
          else if l.any (fun x => decide (8 * raw.length ≤ x)) then .err .indexError
          else if l.isEmpty then .err .valueError
          else .val (.int (l.foldl (fun acc x => 2 * acc + (bitAt raw x : Int)) 0))
      | some (.idx _) => .err .typeError
      | none => .skip

/-- The widget loop of `raw2data`, threading the Python local `event` (the
register `reg`): a widget with neither key leaves `event` at its previous
value, and reading it before any assignment is the unbound-local error. -/
def raw2dataAux (raw : List Nat) :
    List (Nat × WidgetProps) → Option DVal → DResult
  | [], _ => .ok []
  | (name, props) :: rest, reg =>
    match decodeWidget props raw with
    | .err e => .err e
    | .val v =>
        match raw2dataAux raw rest (some v) with
        | .ok evs => .ok ((name, v) :: evs)
        | .err e => .err e
    | .skip =>
        match reg with
        | none => .err .unboundLocal
        | some v =>
            match raw2dataAux raw rest (some v) with
            | .ok evs => .ok ((name, v) :: evs)
            | .err e => .err e

/-- `SerialReader.raw2data`: decode every widget of the schema against the
raw byte buffer. -/
def raw2data (widgets : List (Nat × WidgetProps)) (raw : List Nat) : DResult :=
  raw2dataAux raw widgets none

/-- The condition under which the source's per-field check fires: the
declared byte offset(s) strictly exceed the buffer length, or a declared
bit offset strictly exceeds eight times the buffer length. -/
def strictOutOfRange (p : WidgetProps) (n : Nat) : Bool :=
  match p.byte with
  | some (.idx i) => decide (n < i)
  | some (.idxList l) => l.any (fun x => decide (n < x))
  | none =>
      match p.bit with
      | some (.idxList l) => l.any (fun x => decide (8 * n < x))
      | _ => false

/-! ## Framed serial channel: SerialReader.send_command response loop -/

/-- The CRLF line terminator `b"\r\n"`. -/
def crlf : List Nat := [13, 10]

/-- Python's `needle in hay` substring test on byte strings. -/
def containsSeq (needle : List Nat) : List Nat → Bool
  | [] => needle.isEmpty
  | h :: t => needle.isPrefixOf (h :: t) || containsSeq needle t

/-- State of the response-reading loop of `SerialReader.send_command`
(driver_base.py 185-215): whether the start marker has been seen, the
accumulated response bytes, which required keys have been observed, and
how many `readline` results have been consumed. -/
structure SCState where
  started : Bool
  response : List Nat
  keysReceived : List Bool
  consumed : Nat
  deriving DecidableEq, Repr

/-- The per-line update of `keys_received` (lines 210-215): each key that
occurs in the line is marked received. The `break` in the source exits
only the inner `for`, and only when every flag is already true, so it
marks the same flags. -/
def keysUpdate (keys : List (List Nat)) (line : List Nat) (kr : List Bool) :
    List Bool :=
  (keys.zip kr).map (fun p => p.2 || containsSeq p.1 line)

/-- The `while` loop of `SerialReader.send_command`, reading from a queue
of pending serial lines (one entry per `readline` call; an empty entry is
a read that timed out). The loop ends when the line queue (the overall
timeout budget) is exhausted or a line containing the end marker plus CRLF
is read. Observing every required key does NOT end the loop: the source's
`break` leaves only the inner `for`. -/
def sendCommandLoop (respStart respEnd : List Nat) (keys : List (List Nat)) :
    List (List Nat) → SCState → SCState
  | [], st => st
  | line :: rest, st =>
    let st1 : SCState := { st with consumed := st.consumed + 1 }
    if line.isEmpty then sendCommandLoop respStart respEnd keys rest st1
    else if containsSeq crlf line then
      let st2 : SCState :=
        if containsSeq (respStart ++ crlf) line then
          { st1 with response := st1.response ++ respStart ++ crlf, started := true }
        else if st1.started then { st1 with response := st1.response ++ line }
        else st1
      if containsSeq (respEnd ++ crlf) line then st2
      else
        sendCommandLoop respStart respEnd keys rest
          { st2 with keysReceived := keysUpdate keys line st2.keysReceived }
    else sendCommandLoop respStart respEnd keys rest st1

/-- The initial loop state for a command with `n` required response keys
(`response_started` is false for a non-`None` start marker). -/
def scInit (n : Nat) : SCState :=
  { started := false, response := [], keysReceived := List.replicate n false,
    consumed := 0 }

/-! ## Driver loop: TG0Driver.send_command sleep-flag handling -/

/-- What the transport does during the command transaction: the serial
connection is not established, the transaction raises, or it returns a
response. -/
inductive TransportOutcome where
  | notOpen
  | raises
  | ok (resp : List Nat)
  deriving DecidableEq, Repr

/-- The driver flags involved in the sleep/wake handshake. -/
structure DriverFlags where
  runMode : Bool
  sleepMode : Bool
  deriving DecidableEq, Repr

/-- `TG0Driver.send_command` (driver_base.py 576-597): when `sleep` is
requested and the loop is running, `self.sleep()` sets the sleep flag;
the body then runs under `try/except/finally`: the not-open early
`return None` and the `except` path both still execute the `finally`
clause, which clears the sleep flag. Returns the response (or the `None`
sentinel) and the final flags. -/
def tg0SendCommand (fl : DriverFlags) (sleep : Bool)
    (outcome : TransportOutcome) : Option (List Nat) × DriverFlags :=
  let fl1 : DriverFlags :=
    if sleep && fl.runMode then { fl with sleepMode := true } else fl
  match outcome with
  | .notOpen =>
      -- `return None` inside `try`: `finally` still runs and clears the flag
      (none, { fl1 with sleepMode := false })
  | .raises =>
      -- `except`: clears the flag and returns `None`; `finally` clears again
      (none, { fl1 with sleepMode := false })
  | .ok r =>
      -- normal completion: `finally` clears the flag
      (some r, { fl1 with sleepMode := false })

/-! ## Quaternion algebra (src/etee/quaternion.py) over the reals -/

@[ext]
structure Quat where
  w : ℝ
  x : ℝ
  y : ℝ
  z : ℝ

/-- Hamilton product, `Quaternion.__mul__` with a quaternion operand
(quaternion.py 136-142). -/
noncomputable def qmul (p q : Quat) : Quat :=
  ⟨p.w * q.w - p.x * q.x - p.y * q.y - p.z * q.z,
   p.w * q.x + p.x * q.w + p.y * q.z - p.z * q.y,
   p.w * q.y - p.x * q.z + p.y * q.w + p.z * q.x,
   p.w * q.z + p.x * q.y - p.y * q.x + p.z * q.w⟩

/-- `Quaternion.conj` (quaternion.py 59-65). -/
noncomputable def qconj (q : Quat) : Quat := ⟨q.w, -q.x, -q.y, -q.z⟩

/-- `Quaternion.__mul__` with a scalar operand: elementwise scaling. -/
noncomputable def qscale (c : ℝ) (q : Quat) : Quat :=
  ⟨c * q.w, c * q.x, c * q.y, c * q.z⟩

/-- `Quaternion.__add__`: elementwise addition. -/
noncomputable def qadd (p q : Quat) : Quat :=
  ⟨p.w + q.w, p.x + q.x, p.y + q.y, p.z + q.z⟩

/-- numpy broadcast subtraction of two 4-vectors (used for
`qdot = ... - beta * step`). -/
noncomputable def qsub (p q : Quat) : Quat :=
  ⟨p.w - q.w, p.x - q.x, p.y - q.y, p.z - q.z⟩

/-- numpy broadcast division of a 4-vector by a scalar
(`q / norm(q)`, `step / norm(step)`). -/
noncomputable def qdiv (q : Quat) (c : ℝ) : Quat :=
  ⟨q.w / c, q.x / c, q.y / c, q.z / c⟩

/-- Squared Euclidean norm of a quaternion's four components. -/
noncomputable def normSq4 (q : Quat) : ℝ := q.w ^ 2 + q.x ^ 2 + q.y ^ 2 + q.z ^ 2

/-- `numpy.linalg.norm` of the 4-vector. -/
noncomputable def norm4 (q : Quat) : ℝ := Real.sqrt (normSq4 q)

abbrev Vec3 := ℝ × ℝ × ℝ

/-- Squared Euclidean norm of a 3-vector. -/
noncomputable def normSq3 (v : Vec3) : ℝ := v.1 ^ 2 + v.2.1 ^ 2 + v.2.2 ^ 2

/-- `numpy.linalg.norm` of a 3-vector. -/
noncomputable def norm3 (v : Vec3) : ℝ := Real.sqrt (normSq3 v)

/-- `v /= norm(v)`: elementwise division by the Euclidean norm. -/
noncomputable def normalize3 (v : Vec3) : Vec3 :=
  (v.1 / norm3 v, v.2.1 / norm3 v, v.2.2 / norm3 v)

/-- `math.atan2(y, x)`, the two-argument arctangent. -/
noncomputable def atan2 (y x : ℝ) : ℝ :=
  if 0 < x then Real.arctan (y / x)
  else if x < 0 then
    (if 0 ≤ y then Real.arctan (y / x) + Real.pi
     else Real.arctan (y / x) - Real.pi)
  else
    (if 0 < y then Real.pi / 2 else if y < 0 then -(Real.pi / 2) else 0)

/-- The source's clamp of the arcsine argument to `[-1, 1]`
(quaternion.py 118-119). -/
noncomputable def clampPM1 (t : ℝ) : ℝ :=
  if 1 < t then 1 else if t < -1 then -1 else t

/-- `Quaternion.to_euler` (quaternion.py 101-126): roll and yaw by
two-argument arctangents, and pitch as the arcsine of the clamped
`2*(w*y - z*x)` MULTIPLIED BY TWO, exactly as the source computes it. -/
noncomputable def toEuler (q : Quat) : ℝ × ℝ × ℝ :=
  let t0 := 2 * (q.w * q.x + q.y * q.z)
  let t1 := 1 - 2 * (q.x * q.x + q.y * q.y)
  let t2 := clampPM1 (2 * (q.w * q.y - q.z * q.x))
  let t3 := 2 * (q.w * q.z + q.x * q.y)
  let t4 := 1 - 2 * (q.y * q.y + q.z * q.z)
  (atan2 t0 t1, Real.arcsin t2 * 2, atan2 t3 t4)

/-- Modelled from the spec: the standard aerospace (roll-pitch-yaw)
Euler-angle extraction with the pitch arcsine argument clamped to
`[-1, 1]` — pitch is the arcsine itself, not its double. -/
noncomputable def toEulerStandard (q : Quat) : ℝ × ℝ × ℝ :=
  let t0 := 2 * (q.w * q.x + q.y * q.z)
  let t1 := 1 - 2 * (q.x * q.x + q.y * q.y)
  let t2 := clampPM1 (2 * (q.w * q.y - q.z * q.x))
  let t3 := 2 * (q.w * q.z + q.x * q.y)
  let t4 := 1 - 2 * (q.y * q.y + q.z * q.z)
  (atan2 t0 t1, Real.arcsin t2, atan2 t3 t4)

/-! ## AHRS filter (src/etee/ahrs.py) -/

/-- The state of one `Ahrs` instance. -/
structure AhrsState where
  samplePeriod : ℝ
  quaternion : Quat
  beta : ℝ
  euler : ℝ × ℝ × ℝ
  timeQueue : List ℝ
  gyroOffset : Vec3
  magOffset : Vec3

/-- `Ahrs.__init__` (ahrs.py 54-75): the `sampleperiod` and `quaternion`
parameters are assigned first (lines 62-65) but then unconditionally
overwritten with `1/97` and the identity quaternion (lines 69-70); only
the `beta` parameter survives, defaulting to the class constant 0.0315. -/
noncomputable def ahrsInit (sampleperiod : Option ℝ) (quaternion : Option Quat)
    (beta : Option ℝ) : AhrsState :=
  let _sp0 : Option ℝ := sampleperiod
  let _q0 : Option Quat := quaternion
  let beta1 : ℝ := match beta with | some b => b | none => 0.0315
  { samplePeriod := 1 / 97
    quaternion := ⟨1, 0, 0, 0⟩
    beta := beta1
    euler := (0, 0, 0)
    timeQueue := []
    gyroOffset := (0, 0, 0)
    magOffset := (0, 0, 0) }

/-- A default-constructed `Ahrs()`. -/
noncomputable def ahrsDefault : AhrsState := ahrsInit none none none

/-- The sample-period bookkeeping at the top of `Ahrs.get_quaternion`
(ahrs.py 201-207): if the 100-slot queue is full, pop the oldest
timestamp, push the current one and set
`samplePeriod = (now - oldest) / 100`; otherwise just push. -/
noncomputable def pushSampleTime (st : AhrsState) (now : ℝ) : AhrsState :=
  if st.timeQueue.length = 100 then
    { st with samplePeriod := (now - st.timeQueue.headI) / 100,
              timeQueue := st.timeQueue.tail ++ [now] }
  else { st with timeQueue := st.timeQueue ++ [now] }

/-- The gradient-descent corrective step `J^T f` of `Ahrs.update_imu`
(ahrs.py 169-180), computed from the current quaternion and the
normalised accelerometer reading. -/
noncomputable def stepImu (q : Quat) (a : Vec3) : Quat :=
  let an := normalize3 a
  let f1 := 2 * (q.x * q.z - q.w * q.y) - an.1
  let f2 := 2 * (q.w * q.x + q.y * q.z) - an.2.1
  let f3 := 2 * (0.5 - q.x ^ 2 - q.y ^ 2) - an.2.2
  ⟨-2 * q.y * f1 + 2 * q.x * f2,
   2 * q.z * f1 + 2 * q.w * f2 - 4 * q.x * f3,
   -2 * q.w * f1 + 2 * q.z * f2 - 4 * q.y * f3,
   2 * q.x * f1 + 2 * q.y * f2⟩

/-- The quaternion derivative of `Ahrs.update_imu` (ahrs.py 183-184):
`(q * gyro_quat) * 0.5 - beta * (step / norm(step))`. -/
noncomputable def qdotImu (st : AhrsState) (g a : Vec3) : Quat :=
  qsub (qscale 0.5 (qmul st.quaternion ⟨0, g.1, g.2.1, g.2.2⟩))
       (qscale st.beta (qdiv (stepImu st.quaternion a) (norm4 (stepImu st.quaternion a))))

/-- The integrated (not yet re-normalised) quaternion of `Ahrs.update_imu`
(ahrs.py 187): `q + qdot * samplePeriod`. -/
noncomputable def qNewImu (st : AhrsState) (g a : Vec3) : Quat :=
  qadd st.quaternion (qscale st.samplePeriod (qdotImu st g a))

/-- `Ahrs.update_imu` (ahrs.py 151-188). A zero-norm accelerometer aborts
the update with the state unchanged. A zero-norm corrective step or a
zero integrated quaternion makes the source divide zero by zero — the
numpy result is a NaN-poisoned quaternion, modelled as `none`. Otherwise
the integrated quaternion is re-normalised and stored. -/
noncomputable def updateImu (st : AhrsState) (g a : Vec3) : Option AhrsState :=
  if norm3 a = 0 then some st
  else if norm4 (stepImu st.quaternion a) = 0 then none
  else if norm4 (qNewImu st g a) = 0 then none
  else some { st with
    quaternion := qdiv (qNewImu st g a) (norm4 (qNewImu st g a)) }

/-- The gradient-descent corrective step `J^T f` of the MARG variant
`Ahrs.update` (ahrs.py 121-141), including the earth-frame reference
field `b = [0, norm(h[1:3]), 0, h[3]]` built by conjugating the
normalised magnetometer reading with the current quaternion. -/
noncomputable def stepMarg (q : Quat) (a m : Vec3) : Quat :=
  let an := normalize3 a
  let mn := normalize3 m
  let h := qmul q (qmul ⟨0, mn.1, mn.2.1, mn.2.2⟩ (qconj q))
  let b1 := Real.sqrt (h.x ^ 2 + h.y ^ 2)
  let b3 := h.z
  let f1 := 2 * (q.x * q.z - q.w * q.y) - an.1
  let f2 := 2 * (q.w * q.x + q.y * q.z) - an.2.1
  let f3 := 2 * (0.5 - q.x ^ 2 - q.y ^ 2) - an.2.2
  let f4 := 2 * b1 * (0.5 - q.y ^ 2 - q.z ^ 2) + 2 * b3 * (q.x * q.z - q.w * q.y) - mn.1
  let f5 := 2 * b1 * (q.x * q.y - q.w * q.z) + 2 * b3 * (q.w * q.x + q.y * q.z) - mn.2.1
  let f6 := 2 * b1 * (q.w * q.y + q.x * q.z) + 2 * b3 * (0.5 - q.x ^ 2 - q.y ^ 2) - mn.2.2
  ⟨-2 * q.y * f1 + 2 * q.x * f2
     + (-2 * b3 * q.y) * f4 + (-2 * b1 * q.z + 2 * b3 * q.x) * f5
     + (2 * b1 * q.y) * f6,
   2 * q.z * f1 + 2 * q.w * f2 - 4 * q.x * f3
     + (2 * b3 * q.z) * f4 + (2 * b1 * q.y + 2 * b3 * q.w) * f5
     + (2 * b1 * q.z - 4 * b3 * q.x) * f6,
   -2 * q.w * f1 + 2 * q.z * f2 - 4 * q.y * f3
     + (-4 * b1 * q.y - 2 * b3 * q.w) * f4 + (2 * b1 * q.x + 2 * b3 * q.z) * f5
     + (2 * b1 * q.w - 4 * b3 * q.y) * f6,
   2 * q.x * f1 + 2 * q.y * f2
     + (-4 * b1 * q.z + 2 * b3 * q.x) * f4 + (-2 * b1 * q.w + 2 * b3 * q.y) * f5
     + (2 * b1 * q.x) * f6⟩

/-- The quaternion derivative of `Ahrs.update` (ahrs.py 145). -/
noncomputable def qdotMarg (st : AhrsState) (g a m : Vec3) : Quat :=
  qsub (qscale 0.5 (qmul st.quaternion ⟨0, g.1, g.2.1, g.2.2⟩))
       (qscale st.beta (qdiv (stepMarg st.quaternion a m) (norm4 (stepMarg st.quaternion a m))))

/-- The integrated quaternion of `Ahrs.update` (ahrs.py 148). -/
noncomputable def qNewMarg (st : AhrsState) (g a m : Vec3) : Quat :=
  qadd st.quaternion (qscale st.samplePeriod (qdotMarg st g a m))

/-- `Ahrs.update` (ahrs.py 93-149), the MARG variant: a zero-norm
accelerometer or magnetometer aborts the update with the state unchanged
(warn and return); a zero corrective step or zero integrated quaternion
NaN-poisons the state (`none`); otherwise the re-normalised quaternion is
stored. -/
noncomputable def update (st : AhrsState) (g a m : Vec3) : Option AhrsState :=
  if norm3 a = 0 then some st
  else if norm3 m = 0 then some st
  else if norm4 (stepMarg st.quaternion a m) = 0 then none
  else if norm4 (qNewMarg st g a m) = 0 then none
  else some { st with
    quaternion := qdiv (qNewMarg st g a m) (norm4 (qNewMarg st g a m)) }

/-! ## Decoder theorems -/

theorem raw2dataAux_nil (raw : List Nat) (reg : Option DVal) :
    raw2dataAux raw [] reg = .ok [] := rfl

theorem raw2dataAux_cons (raw : List Nat) (name : Nat) (props : WidgetProps)
    (rest : List (Nat × WidgetProps)) (reg : Option DVal) :
    raw2dataAux raw ((name, props) :: rest) reg =
      match decodeWidget props raw with
      | .err e => .err e
      | .val v =>
          match raw2dataAux raw rest (some v) with
          | .ok evs => .ok ((name, v) :: evs)
          | .err e => .err e
      | .skip =>
          match reg with
          | none => .err .unboundLocal
          | some v =>
              match raw2dataAux raw rest (some v) with
              | .ok evs => .ok ((name, v) :: evs)
              | .err e => .err e := rfl

theorem flatMap_slice1_eq_map (raw : List Nat) :
    ∀ l : List Nat, (∀ x ∈ l, x < raw.length) →
      l.flatMap (slice1 raw) = l.map (fun x => raw.getD x 0) := by
  intro l
  induction l with
  | nil => intro _; rfl
  | cons a t ih =>
     intro h
     have ha : a < raw.length := h a (by simp)
     have ht : ∀ x ∈ t, x < raw.length := fun x hx => h x (by simp [hx])
     simp [List.flatMap_cons, slice1, ha, ih ht]

/-- C1 (amended): `raw2data` raises the widget-index range error for any
field whose declared byte offset is STRICTLY greater than the buffer
length (or whose bit offsets are strictly greater than 8 times the buffer
length), and the check happens per field before any indexing; an offset
equal to the boundary passes the source's `>` check and is decoded from
the empty slice instead of raising. -/
theorem raw2data_range_error_strict (raw : List Nat) (name : Nat)
    (p : WidgetProps) (rest : List (Nat × WidgetProps)) (reg : Option DVal)
    (h : strictOutOfRange p raw.length = true) :
    raw2dataAux raw ((name, p) :: rest) reg = .err .rangeError := by
  obtain ⟨b, bk, sg, sv⟩ := p
  cases b with
  | some ks =>
    cases ks with
    | idx i =>
      simp only [strictOutOfRange, decide_eq_true_eq] at h
      simp [raw2dataAux, decodeWidget, h]
    | idxList l =>
      simp only [strictOutOfRange] at h
      simp [raw2dataAux, decodeWidget, h]
  | none =>
    cases bk with
    | none => simp [strictOutOfRange] at h
    | some ks =>
      cases ks with
      | idx i => simp [strictOutOfRange] at h
      | idxList l =>
        simp only [strictOutOfRange] at h
        simp [raw2dataAux, decodeWidget, h]

theorem raw2data_range_error_strict_witness :
    strictOutOfRange ⟨some (.idx 3), none, false, false⟩
        ([7, 7] : List Nat).length = true
    ∧ raw2dataAux [7, 7] [(0, ⟨some (.idx 3), none, false, false⟩)] none
        = .err .rangeError :=
  ⟨by decide,
   raw2data_range_error_strict [7, 7] 0 ⟨some (.idx 3), none, false, false⟩ []
     none (by decide)⟩

/-- C1 counterexample: a single-byte widget whose declared offset EQUALS
the buffer length (offset 1, buffer of length 1) passes the source's
strict `>` check and is silently decoded from the empty slice as 0, so the
claim "offset greater than or equal to the buffer length always raises
the range error" is false. -/
theorem raw2data_offset_eq_len_silently_decodes :
    raw2data [(0, ⟨some (.idx 1), none, false, false⟩)] [7] = .ok [(0, .int 0)]
    ∧ raw2data [(0, ⟨some (.idx 1), none, false, false⟩)] [7]
        ≠ .err .rangeError := by
  decide

/-- C8: for a widget whose `"byte"` key is a list of offsets with the
`"single_value"` flag set and every offset in range, decoding yields the
bytes at those offsets concatenated in list order and read as one
little-endian integer, two's-complement signed exactly when the
`"signed"` flag is present. -/
theorem raw2data_combine_little_endian (name : Nat) (raw : List Nat)
    (l : List Nat) (sg : Bool) (bitkey : Option KeySpec)
    (h : ∀ x ∈ l, x < raw.length) :
    raw2data [(name, ⟨some (.idxList l), bitkey, sg, true⟩)] raw
      = .ok [(name, .int (intFromBytes (l.map (fun x => raw.getD x 0)) true sg))] := by
  have hany : l.any (fun x => decide (raw.length < x)) = false := by
    simp only [List.any_eq_false, decide_eq_true_eq]
    intro x hx
    exact Nat.not_lt.mpr (Nat.le_of_lt (h x hx))
  simp [raw2data, raw2dataAux, decodeWidget, hany, flatMap_slice1_eq_map raw l h]

theorem raw2data_combine_little_endian_witness :
    (∀ x ∈ ([2, 2] : List Nat), x < ([1, 2, 255] : List Nat).length)
    ∧ raw2data [(5, ⟨some (.idxList [2, 2]), none, true, true⟩)] [1, 2, 255]
        = .ok [(5, .int (-1))] := by
  refine ⟨by decide, ?_⟩
  have h := raw2data_combine_little_endian 5 [1, 2, 255] [2, 2] true none
    (by decide)
  rw [h]; decide

/-- C10: a widget spec with neither a `"byte"` nor a `"bit"` key never
produces the configuration/range error: as the first widget it fails with
the unbound-local error (reading the never-assigned `event`), and
otherwise the field silently receives the value decoded for the previous
widget. -/
theorem raw2data_missing_keys_reuse_previous (raw : List Nat) (n n' : Nat)
    (sg sv : Bool) (p : WidgetProps) (v : DVal) :
    raw2data [(n', ⟨none, none, sg, sv⟩)] raw = .err .unboundLocal
    ∧ (decodeWidget p raw = .val v →
        raw2data [(n, p), (n', ⟨none, none, sg, sv⟩)] raw
          = .ok [(n, v), (n', v)]) := by
  constructor
  · simp [raw2data, raw2dataAux, decodeWidget]
  · intro h
    rw [raw2data, raw2dataAux_cons, h]
    simp [raw2dataAux_cons, raw2dataAux_nil, decodeWidget]

theorem raw2data_missing_keys_reuse_previous_witness :
    decodeWidget ⟨some (.idx 0), none, false, false⟩ [5] = .val (.int 5)
    ∧ raw2data [(1, ⟨some (.idx 0), none, false, false⟩),
                (2, ⟨none, none, false, false⟩)] [5]
        = .ok [(1, .int 5), (2, .int 5)] :=
  ⟨by decide,
   (raw2data_missing_keys_reuse_previous [5] 1 2 false false
      ⟨some (.idx 0), none, false, false⟩ (.int 5)).2 (by decide)⟩

/-! ## Driver theorems -/

/-- C2 (code bug demonstration): with one required key `KEY`, start
marker `OK`, end marker `END`, and pending lines `OK\r\n`, `KEY=1\r\n`,
`X\r\n`, every required key has been received after the second line, yet
the loop still consumes the third line and appends it to the response —
the source's `break` exits only the inner `for`, so the loop does not
leave as soon as all keys are read (contrary to its own docstring). -/
theorem sendCommand_keeps_reading_after_all_keys :
    (sendCommandLoop [79, 75] [69, 78, 68] [[75, 69, 89]]
        [[79, 75, 13, 10], [75, 69, 89, 61, 49, 13, 10]] (scInit 1)).keysReceived
      = [true]
    ∧ (sendCommandLoop [79, 75] [69, 78, 68] [[75, 69, 89]]
        [[79, 75, 13, 10], [75, 69, 89, 61, 49, 13, 10], [88, 13, 10]]
        (scInit 1)).consumed = 3
    ∧ (sendCommandLoop [79, 75] [69, 78, 68] [[75, 69, 89]]
        [[79, 75, 13, 10], [75, 69, 89, 61, 49, 13, 10], [88, 13, 10]]
        (scInit 1)).response
      = [79, 75, 13, 10] ++ [75, 69, 89, 61, 49, 13, 10] ++ [88, 13, 10] := by
  decide

/-- C3: whatever the transport outcome of `TG0Driver.send_command` — the
not-open `None` return, an exception during the transaction, or a normal
response — the sleep flag is false when the call completes, and the
failure paths return the no-response sentinel. -/
theorem tg0SendCommand_clears_sleep_flag (fl : DriverFlags) (sleep : Bool)
    (o : TransportOutcome) :
    ((tg0SendCommand fl sleep o).2.sleepMode = false)
    ∧ ((tg0SendCommand fl sleep .notOpen).1 = none)
    ∧ ((tg0SendCommand fl sleep .raises).1 = none) := by
  refine ⟨?_, rfl, rfl⟩
  cases o <;> rfl

/-! ## Quaternion and AHRS theorems -/

/-- C9: the `sampleperiod` and `quaternion` constructor parameters are
dead — every constructed `Ahrs` has `samplePeriod = 1/97` and the
identity quaternion — while the `beta` parameter, when supplied, takes
effect (and otherwise the class default 0.0315 is used). -/
theorem ahrsInit_overwrites_period_and_quaternion (sp : Option ℝ)
    (q : Option Quat) (b : ℝ) :
    (∀ bo : Option ℝ, (ahrsInit sp q bo).samplePeriod = 1 / 97
        ∧ (ahrsInit sp q bo).quaternion = ⟨1, 0, 0, 0⟩)
    ∧ (ahrsInit sp q none).beta = 0.0315
    ∧ (ahrsInit sp q (some b)).beta = b :=
  ⟨fun _ => ⟨rfl, rfl⟩, rfl, rfl⟩

/-- C5: a zero-norm accelerometer input makes `update_imu` (and `update`)
return with the whole state — in particular the quaternion — unchanged,
and likewise a zero-norm magnetometer input for `update`. -/
theorem update_zero_norm_is_noop (st : AhrsState) (g a m : Vec3) :
    (norm3 a = 0 → updateImu st g a = some st)
    ∧ (norm3 a = 0 ∨ norm3 m = 0 → update st g a m = some st) := by
  constructor
  · intro h
    simp [updateImu, h]
  · rintro (h | h)
    · simp [update, h]
    · by_cases ha : norm3 a = 0
      · simp [update, ha]
      · simp [update, ha, h]

theorem update_zero_norm_is_noop_witness :
    norm3 ((0 : ℝ), (0 : ℝ), (0 : ℝ)) = 0
    ∧ updateImu ahrsDefault (1, 2, 3) (0, 0, 0) = some ahrsDefault
    ∧ update ahrsDefault (1, 2, 3) (0, 0, 0) (1, 1, 1) = some ahrsDefault := by
  have h0 : norm3 ((0 : ℝ), (0 : ℝ), (0 : ℝ)) = 0 := by
    unfold norm3 normSq3
    norm_num
  exact ⟨h0,
    (update_zero_norm_is_noop ahrsDefault (1, 2, 3) (0, 0, 0) (1, 1, 1)).1 h0,
    (update_zero_norm_is_noop ahrsDefault (1, 2, 3) (0, 0, 0) (1, 1, 1)).2 (Or.inl h0)⟩

theorem toEuler_pitch_eq (w x y z : ℝ) :
    (toEuler ⟨w, x, y, z⟩).2.1
      = Real.arcsin (clampPM1 (2 * (w * y - z * x))) * 2 := rfl

theorem toEulerStandard_pitch_eq (w x y z : ℝ) :
    (toEulerStandard ⟨w, x, y, z⟩).2.1
      = Real.arcsin (clampPM1 (2 * (w * y - z * x))) := rfl

/-- C6 counterexample: at the quaternion `(√2/2, 0, √2/2, 0)` (a 90° pitch
rotation) the source's `to_euler` disagrees with the standard aerospace
extraction: the source returns pitch `π` (twice the arcsine), the
standard sequence returns `π/2`. -/
theorem toEuler_pitch_not_standard :
    toEuler ⟨Real.sqrt 2 / 2, 0, Real.sqrt 2 / 2, 0⟩
      ≠ toEulerStandard ⟨Real.sqrt 2 / 2, 0, Real.sqrt 2 / 2, 0⟩ := by
  have e1 : (2 : ℝ) * (Real.sqrt 2 / 2 * (Real.sqrt 2 / 2) - 0 * 0) = 1 := by
    have h := Real.sq_sqrt (show (0 : ℝ) ≤ 2 by norm_num)
    nlinarith [h]
  have hc : clampPM1 (1 : ℝ) = 1 := by
    unfold clampPM1
    norm_num
  intro h
  have hp := congrArg (fun p : ℝ × ℝ × ℝ => p.2.1) h
  simp only at hp
  rw [toEuler_pitch_eq, toEulerStandard_pitch_eq, e1, hc, Real.arcsin_one] at hp
  have hpi := Real.pi_pos
  linarith

/-- C6 (amended): `to_euler` computes roll and yaw by the standard
aerospace sequence and clamps the pitch arcsine argument to `[-1, 1]`,
but the pitch it returns is TWICE the standard arcsine; the identity
quaternion still maps to `(0, 0, 0)`. -/
theorem toEuler_standard_with_doubled_pitch :
    (∀ q : Quat, toEuler q
        = ((toEulerStandard q).1, 2 * (toEulerStandard q).2.1,
           (toEulerStandard q).2.2))
    ∧ toEuler ⟨1, 0, 0, 0⟩ = (0, 0, 0) := by
  constructor
  · intro q
    obtain ⟨w, x, y, z⟩ := q
    refine Prod.ext_iff.mpr ⟨rfl, Prod.ext_iff.mpr ⟨?_, rfl⟩⟩
    rw [toEuler_pitch_eq, toEulerStandard_pitch_eq, mul_comm]
  · show (atan2 (2 * (1 * 0 + 0 * 0)) (1 - 2 * (0 * 0 + 0 * 0)),
          Real.arcsin (clampPM1 (2 * (1 * 0 - 0 * 0))) * 2,
          atan2 (2 * (1 * 0 + 0 * 0)) (1 - 2 * (0 * 0 + 0 * 0))) = (0, 0, 0)
    have hc0 : clampPM1 (0 : ℝ) = 0 := by
      unfold clampPM1
      norm_num
    norm_num [atan2, hc0, Real.arcsin_zero, Real.arctan_zero]

theorem normSq4_nonneg (q : Quat) : 0 ≤ normSq4 q := by
  unfold normSq4
  positivity

theorem norm4_eq_zero_iff (q : Quat) : norm4 q = 0 ↔ normSq4 q = 0 := by
  unfold norm4
  exact Real.sqrt_eq_zero (normSq4_nonneg q)

theorem normSq4_qdiv (q : Quat) (c : ℝ) :
    normSq4 (qdiv q c) = normSq4 q / c ^ 2 := by
  unfold normSq4 qdiv
  ring

theorem normSq4_normalized (q : Quat) (h : norm4 q ≠ 0) :
    normSq4 (qdiv q (norm4 q)) = 1 := by
  rw [normSq4_qdiv, norm4, Real.sq_sqrt (normSq4_nonneg q)]
  exact div_self (fun h0 => h ((norm4_eq_zero_iff q).mpr h0))

/-- C4 (amended): after an `update_imu` or `update` call whose
accelerometer (and, for MARG, magnetometer) input has nonzero norm AND
whose gradient-descent corrective step and integrated quaternion are
nonzero, the stored quaternion has unit norm exactly (so certainly within
1e-6). When the corrective step is zero — which happens for nonzero
accelerometer input at exact steady state — the source divides zero by
zero and the quaternion becomes NaN instead (see the counterexample). -/
theorem ahrs_update_unit_norm (st : AhrsState) (g a m : Vec3) :
    (norm3 a ≠ 0 → norm4 (stepImu st.quaternion a) ≠ 0 →
      norm4 (qNewImu st g a) ≠ 0 →
      ∃ st2, updateImu st g a = some st2 ∧ normSq4 st2.quaternion = 1)
    ∧ (norm3 a ≠ 0 → norm3 m ≠ 0 → norm4 (stepMarg st.quaternion a m) ≠ 0 →
      norm4 (qNewMarg st g a m) ≠ 0 →
      ∃ st2, update st g a m = some st2 ∧ normSq4 st2.quaternion = 1) := by
  constructor
  · intro ha hs hq
    refine ⟨{ st with
        quaternion := qdiv (qNewImu st g a) (norm4 (qNewImu st g a)) }, ?_, ?_⟩
    · simp only [updateImu, if_neg ha, if_neg hs, if_neg hq]
    · exact normSq4_normalized _ hq
  · intro ha hm hs hq
    refine ⟨{ st with
        quaternion := qdiv (qNewMarg st g a m) (norm4 (qNewMarg st g a m)) }, ?_, ?_⟩
    · simp only [update, if_neg ha, if_neg hm, if_neg hs, if_neg hq]
    · exact normSq4_normalized _ hq

/-- C4 counterexample: with the default state (identity quaternion) and
the NONZERO-norm accelerometer input `(0, 0, 1)`, the gradient step
`J^T f` is exactly zero, so the source computes `step /= norm(step)` as
0/0 and the quaternion becomes NaN (`none` in this embedding) — its norm
is not 1, refuting the claim that a nonzero-norm accelerometer suffices
for the unit-norm invariant. -/
theorem updateImu_nan_at_steady_state :
    norm3 ((0 : ℝ), 0, 1) ≠ 0
    ∧ updateImu ahrsDefault (0, 0, 0) ((0 : ℝ), 0, 1) = none := by
  have hn : norm3 ((0 : ℝ), 0, 1) = 1 := by
    unfold norm3 normSq3
    norm_num
  have hstep : stepImu ahrsDefault.quaternion ((0 : ℝ), 0, 1) = ⟨0, 0, 0, 0⟩ := by
    show stepImu ⟨1, 0, 0, 0⟩ ((0 : ℝ), 0, 1) = ⟨0, 0, 0, 0⟩
    simp only [stepImu, normalize3, hn]
    norm_num [Quat.mk.injEq]
  have hn40 : norm4 (⟨0, 0, 0, 0⟩ : Quat) = 0 := by
    unfold norm4 normSq4
    norm_num
  refine ⟨by rw [hn]; norm_num, ?_⟩
  unfold updateImu
  rw [hstep, hn40, hn]
  norm_num

theorem ahrs_update_unit_norm_witness :
    norm3 ((1 : ℝ), 0, 0) ≠ 0
    ∧ norm4 (stepImu ahrsDefault.quaternion ((1 : ℝ), 0, 0)) ≠ 0
    ∧ norm4 (qNewImu ahrsDefault (0, 0, 0) ((1 : ℝ), 0, 0)) ≠ 0
    ∧ norm4 (stepMarg ahrsDefault.quaternion ((1 : ℝ), 0, 0) ((1 : ℝ), 0, 0)) ≠ 0
    ∧ norm4 (qNewMarg ahrsDefault (0, 0, 0) ((1 : ℝ), 0, 0) ((1 : ℝ), 0, 0)) ≠ 0
    ∧ (∃ st2, updateImu ahrsDefault (0, 0, 0) ((1 : ℝ), 0, 0) = some st2
        ∧ normSq4 st2.quaternion = 1)
    ∧ (∃ st2, update ahrsDefault (0, 0, 0) ((1 : ℝ), 0, 0) ((1 : ℝ), 0, 0) = some st2
        ∧ normSq4 st2.quaternion = 1) := by
  have hn1 : norm3 ((1 : ℝ), 0, 0) = 1 := by
    unfold norm3 normSq3
    norm_num
  have ha : norm3 ((1 : ℝ), 0, 0) ≠ 0 := by rw [hn1]; norm_num
  have hqd : ahrsDefault.quaternion = ⟨1, 0, 0, 0⟩ := rfl
  have hsp : ahrsDefault.samplePeriod = 1 / 97 := rfl
  have hb : ahrsDefault.beta = 0.0315 := rfl
  have hstep : stepImu ahrsDefault.quaternion ((1 : ℝ), 0, 0) = ⟨0, 0, 2, 0⟩ := by
    show stepImu ⟨1, 0, 0, 0⟩ ((1 : ℝ), 0, 0) = ⟨0, 0, 2, 0⟩
    simp only [stepImu, normalize3, hn1]
    norm_num [Quat.mk.injEq]
  have hsqrt4 : Real.sqrt 4 = 2 := by
    rw [show (4 : ℝ) = 2 ^ 2 by norm_num, Real.sqrt_sq (by norm_num : (0 : ℝ) ≤ 2)]
  have hn4step : norm4 (⟨0, 0, 2, 0⟩ : Quat) = 2 := by
    unfold norm4 normSq4
    norm_num [hsqrt4]
  have hs : norm4 (stepImu ahrsDefault.quaternion ((1 : ℝ), 0, 0)) ≠ 0 := by
    rw [hstep, hn4step]
    norm_num
  have hq2 : norm4 (qNewImu ahrsDefault (0, 0, 0) ((1 : ℝ), 0, 0)) ≠ 0 := by
    unfold norm4
    rw [Real.sqrt_ne_zero']
    unfold qNewImu qdotImu
    rw [hstep, hn4step, hqd, hsp, hb]
    norm_num [normSq4, qadd, qsub, qscale, qmul, qdiv]
  have hstepM : stepMarg ahrsDefault.quaternion ((1 : ℝ), 0, 0) ((1 : ℝ), 0, 0)
      = ⟨0, 0, 2, 0⟩ := by
    show stepMarg ⟨1, 0, 0, 0⟩ ((1 : ℝ), 0, 0) ((1 : ℝ), 0, 0) = ⟨0, 0, 2, 0⟩
    simp only [stepMarg, normalize3, qmul, qconj, hn1]
    norm_num [Real.sqrt_one, Quat.mk.injEq]
  have hsM : norm4 (stepMarg ahrsDefault.quaternion ((1 : ℝ), 0, 0) ((1 : ℝ), 0, 0)) ≠ 0 := by
    rw [hstepM, hn4step]
    norm_num
  have hq2M : norm4 (qNewMarg ahrsDefault (0, 0, 0) ((1 : ℝ), 0, 0) ((1 : ℝ), 0, 0)) ≠ 0 := by
    unfold norm4
    rw [Real.sqrt_ne_zero']
    unfold qNewMarg qdotMarg
    rw [hstepM, hn4step, hqd, hsp, hb]
    norm_num [normSq4, qadd, qsub, qscale, qmul, qdiv]
  refine ⟨ha, hs, hq2, hsM, hq2M, ?_, ?_⟩
  · exact (ahrs_update_unit_norm ahrsDefault (0, 0, 0) ((1 : ℝ), 0, 0)
      ((1 : ℝ), 0, 0)).1 ha hs hq2
  · exact (ahrs_update_unit_norm ahrsDefault (0, 0, 0) ((1 : ℝ), 0, 0)
      ((1 : ℝ), 0, 0)).2 ha ha hsM hq2M

theorem headI_eq_getD_zero : ∀ (l : List ℝ), l ≠ [] → l.headI = l.getD 0 0
  | [], h => absurd rfl h
  | _ :: _, _ => rfl

theorem drop_headI_eq_getD (l : List ℝ) (n : Nat) (h : n < l.length) :
    (l.drop n).headI = l.getD n 0 := by
  have hne : l.drop n ≠ [] := by
    intro hc
    have hl := List.length_drop n l
    rw [hc] at hl
    simp at hl
    omega
  rw [headI_eq_getD_zero _ hne,
      List.getD_eq_getElem _ _ (by simp [List.length_drop]; omega),
      List.getD_eq_getElem _ _ h]
  simp [List.getElem_drop]

/-- The invariant of the sample-period estimator: after pushing the
timestamps `ts` into a fresh state, the queue holds the last (at most)
100 of them, and the period is the static one for the first 100 pushes
and `(last - the one 100 pushes earlier) / 100` afterwards. -/
theorem foldl_push_spec (st : AhrsState) (h0 : st.timeQueue = [])
    (ts : List ℝ) :
    (List.foldl pushSampleTime st ts).timeQueue = ts.drop (ts.length - 100)
    ∧ (List.foldl pushSampleTime st ts).samplePeriod
        = (if ts.length ≤ 100 then st.samplePeriod
           else (ts.getD (ts.length - 1) 0 - ts.getD (ts.length - 101) 0) / 100) := by
  induction ts using List.reverseRecOn with
  | nil =>
    refine ⟨by simp [h0], ?_⟩
    simp
  | append_singleton ts t ih =>
    obtain ⟨ihq, ihsp⟩ := ih
    rw [List.foldl_append, List.foldl_cons, List.foldl_nil]
    rcases Nat.lt_trichotomy ts.length 100 with h99 | h100 | h101
    · -- fewer than 100 entries so far: plain push, period unchanged
      have hq : (List.foldl pushSampleTime st ts).timeQueue = ts := by
        rw [ihq, Nat.sub_eq_zero_of_le (by omega), List.drop_zero]
      constructor
      · rw [pushSampleTime, if_neg (by rw [hq]; omega)]
        simp only [hq, List.length_append, List.length_singleton]
        rw [Nat.sub_eq_zero_of_le (by omega), List.drop_zero]
      · rw [pushSampleTime, if_neg (by rw [hq]; omega)]
        simp only [List.length_append, List.length_singleton]
        rw [if_pos (by omega), ihsp, if_pos (by omega)]
    · -- exactly 100 entries: the queue is full, period re-estimated
      have hq : (List.foldl pushSampleTime st ts).timeQueue = ts := by
        rw [ihq, Nat.sub_eq_zero_of_le (by omega), List.drop_zero]
      have hfull : (List.foldl pushSampleTime st ts).timeQueue.length = 100 := by
        rw [hq, h100]
      have hts_ne : ts ≠ [] := by
        intro hc
        rw [hc] at h100
        simp at h100
      constructor
      · rw [pushSampleTime, if_pos hfull]
        simp only [hq, List.length_append, List.length_singleton]
        rw [show ts.length + 1 - 100 = 1 by omega,
            List.drop_append_of_le_length (by omega),
            ← List.drop_one]
      · rw [pushSampleTime, if_pos hfull]
        simp only [hq, List.length_append, List.length_singleton]
        rw [if_neg (by omega)]
        rw [show ts.length + 1 - 1 = ts.length by omega,
            List.getD_append_right _ _ _ _ (by omega),
            show ts.length - ts.length = 0 by omega,
            show ts.length + 1 - 101 = 0 by omega,
            List.getD_append _ _ _ _ (by omega),
            headI_eq_getD_zero _ hts_ne]
        rfl
    · -- more than 100 entries: the queue holds the last 100
      have hqlen : (List.foldl pushSampleTime st ts).timeQueue.length = 100 := by
        rw [ihq, List.length_drop]
        omega
      constructor
      · rw [pushSampleTime, if_pos hqlen]
        simp only [ihq, List.length_append, List.length_singleton]
        rw [List.tail_drop,
            show ts.length - 100 + 1 = ts.length + 1 - 100 by omega,
            List.drop_append_of_le_length (by omega)]
      · rw [pushSampleTime, if_pos hqlen]
        simp only [ihq, List.length_append, List.length_singleton]
        rw [if_neg (by omega)]
        rw [show ts.length + 1 - 1 = ts.length by omega,
            List.getD_append_right _ _ _ _ (le_refl _),
            show ts.length - ts.length = 0 by omega,
            show ts.length + 1 - 101 = ts.length - 100 by omega,
            List.getD_append _ _ _ _ (by omega),
            drop_headI_eq_getD _ _ (by omega)]
        rfl

/-- C7: starting from a fresh `Ahrs`, the first 100 `get_quaternion`
timestamp pushes leave `samplePeriod` at the static default `1/97` while
queueing every timestamp; from the 101st call on, `samplePeriod` equals
`(current time - time of the call 100 calls earlier) / 100`; in
particular 101 calls at times `t, t+d, ..., t+100d` leave the period
exactly `d`. -/
theorem ahrs_samplePeriod_estimation (ts : List ℝ) (t d : ℝ) :
    (ts.length ≤ 100 →
      (List.foldl pushSampleTime ahrsDefault ts).samplePeriod = 1 / 97
      ∧ (List.foldl pushSampleTime ahrsDefault ts).timeQueue = ts)
    ∧ (101 ≤ ts.length →
      (List.foldl pushSampleTime ahrsDefault ts).samplePeriod
        = (ts.getD (ts.length - 1) 0 - ts.getD (ts.length - 101) 0) / 100)
    ∧ (List.foldl pushSampleTime ahrsDefault
        ((List.range 101).map (fun i : Nat => t + (i : ℝ) * d))).samplePeriod
      = d := by
  obtain ⟨hq, hp⟩ := foldl_push_spec ahrsDefault rfl ts
  refine ⟨fun h => ⟨?_, ?_⟩, fun h => ?_, ?_⟩
  · rw [hp, if_pos h]
    rfl
  · rw [hq, Nat.sub_eq_zero_of_le h, List.drop_zero]
  · rw [hp, if_neg (by omega)]
  · obtain ⟨_, hp2⟩ := foldl_push_spec ahrsDefault rfl
      ((List.range 101).map (fun i : Nat => t + (i : ℝ) * d))
    have hlen : ((List.range 101).map (fun i : Nat => t + (i : ℝ) * d)).length
        = 101 := by simp
    have hget : ∀ k, k < 101 →
        ((List.range 101).map (fun i : Nat => t + (i : ℝ) * d)).getD k 0
          = t + k * d := by
      intro k hk
      rw [List.getD_eq_getElem _ _ (by simp [hlen]; omega), List.getElem_map]
      simp [List.getElem_range]
    rw [hp2, hlen, if_neg (by omega),
        show 101 - 1 = 100 by omega, show 101 - 101 = 0 by omega,
        hget 100 (by omega), hget 0 (by omega)]
    push_cast
    ring

theorem ahrs_samplePeriod_estimation_witness :
    (([(3 : ℝ)] : List ℝ).length ≤ 100
      ∧ (List.foldl pushSampleTime ahrsDefault [(3 : ℝ)]).samplePeriod = 1 / 97
      ∧ (List.foldl pushSampleTime ahrsDefault [(3 : ℝ)]).timeQueue = [3])
    ∧ (101 ≤ (List.replicate 101 (0 : ℝ)).length
      ∧ (List.foldl pushSampleTime ahrsDefault
            (List.replicate 101 (0 : ℝ))).samplePeriod
          = ((List.replicate 101 (0 : ℝ)).getD
               ((List.replicate 101 (0 : ℝ)).length - 1) 0
             - (List.replicate 101 (0 : ℝ)).getD
               ((List.replicate 101 (0 : ℝ)).length - 101) 0) / 100)
    ∧ (List.foldl pushSampleTime ahrsDefault
        ((List.range 101).map (fun i : Nat => (5 : ℝ) + (i : ℝ) * 2))).samplePeriod
      = 2 := by
  have h1 : ([(3 : ℝ)] : List ℝ).length ≤ 100 := by simp
  have h2 : 101 ≤ (List.replicate 101 (0 : ℝ)).length := by simp
  exact ⟨⟨h1, (ahrs_samplePeriod_estimation [(3 : ℝ)] 0 0).1 h1⟩,
         ⟨h2, (ahrs_samplePeriod_estimation (List.replicate 101 (0 : ℝ)) 0 0).2.1 h2⟩,
         (ahrs_samplePeriod_estimation [] 5 2).2.2⟩

end EteeSpec
